import Mathlib

/-!
Verification development for the poll-and-voting service of the
kubernetes-multi-tier-app repository.

The embedding covers the poll domain core: the data model
(`internal/models`, the SQL schema in the database init script), the
repository (`internal/repository/poll_repository.go`) and the service
(`internal/service/poll_service.go`).

Modelling conventions:
* UUIDs are opaque identifiers, modelled as naturals allocated sequentially
  by the store (`DB.nextId`); timestamps are integers; Go `float64`
  percentage arithmetic is modelled exactly over `ℚ`.
* Go's stringly-typed `fmt.Errorf` errors are modelled as inductive error
  values, one constructor per distinct error message of the source (the
  message is recorded in a comment on each constructor).
* Queries over a consistent in-memory store cannot fail; the fallible
  repository calls a single service operation observes are additionally
  modelled as an explicit record of responses (`CastVoteCalls`,
  `ResultsCalls`) so that storage failures and racy, mutually inconsistent
  responses are expressible, as in the spec's concurrency discussion.
-/

set_option maxHeartbeats 1600000

namespace PollApp

/-- models.Poll: id, question, description, created_at, expires_at,
is_active, total_votes. -/
structure Poll where
  ID : Nat
  Question : String
  Description : Option String
  CreatedAt : Int
  ExpiresAt : Option Int
  IsActive : Bool
  TotalVotes : Int
deriving Repr, DecidableEq

/-- models.PollOption: id, poll_id, option_text, vote_count, position,
created_at. -/
structure PollOption where
  ID : Nat
  PollID : Nat
  OptionText : String
  VoteCount : Int
  Position : Nat
  CreatedAt : Int
deriving Repr, DecidableEq

/-- models.Vote: id, poll_id, option_id, voter_identifier, voted_at. -/
structure Vote where
  ID : Nat
  PollID : Nat
  OptionID : Nat
  VoterIdentifier : String
  VotedAt : Int
deriving Repr, DecidableEq

/-- models.PollWithOptions: a poll (embedded) with its options. -/
structure PollWithOptions extends Poll where
  Options : List PollOption
deriving Repr, DecidableEq

/-- models.OptionResult: a poll option (embedded) with its computed
percentage. -/
structure OptionResult extends PollOption where
  Percentage : ℚ
deriving Repr, DecidableEq

/-- models.PollResults. In Go the poll is embedded; here it is the field
`poll` because the outer TotalVotes field would collide with the embedded
one. -/
structure PollResults where
  poll : Poll
  Options : List OptionResult
  TotalVotes : Int
  HasVoted : Bool
  VotedOption : Option Nat
deriving Repr, DecidableEq

/-- models.CreatePollRequest. -/
structure CreatePollRequest where
  Question : String
  Description : Option String
  ExpiresAt : Option Int
  Options : List String
deriving Repr, DecidableEq

/-- The relational store of the database init script: tables polls,
poll_options and votes, plus the id generator. -/
structure DB where
  nextId : Nat
  polls : List Poll
  options : List PollOption
  votes : List Vote
deriving Repr, DecidableEq

/-- Constraint-violation classes of the storage engine relevant to the
schema: unique constraints (unique_voter_per_poll, unique_poll_position),
foreign keys, CHECK constraints on text lengths. -/
inductive StoreErr where
  | uniqueViolation
  | fkViolation
  | checkViolation
deriving Repr, DecidableEq

/-- Errors of PollRepository, one constructor per distinct fmt.Errorf
message of poll_repository.go. -/
inductive RepoErr where
  /-- "failed to cast vote: %w" wrapping the INSERT failure -/
  | castVoteFailed (e : StoreErr)
  /-- "failed to insert poll: %w" -/
  | insertPollFailed (e : StoreErr)
  /-- "failed to insert option: %w" -/
  | insertOptionFailed (e : StoreErr)
  /-- "poll not found" (DeletePoll, zero rows affected) -/
  | pollNotFound
deriving Repr, DecidableEq

/-- Errors of PollService, one constructor per distinct fmt.Errorf message
of poll_service.go. -/
inductive SvcErr where
  /-- "failed to get poll: %w" -/
  | failedToGetPoll (e : StoreErr)
  /-- "poll not found" -/
  | pollNotFound
  /-- "poll is not active" -/
  | pollNotActive
  /-- "poll has expired" -/
  | pollExpired
  /-- "failed to check vote status: %w" -/
  | failedToCheckVoteStatus (e : StoreErr)
  /-- "you have already voted on this poll" -/
  | alreadyVoted
  /-- "failed to get poll options: %w" / "failed to get options: %w" -/
  | failedToGetOptions (e : StoreErr)
  /-- "invalid option for this poll" -/
  | invalidOption
  /-- "failed to cast vote: %w" wrapping the repository error -/
  | failedToCastVote (e : RepoErr)
  /-- the CreatePoll validation messages -/
  | validationFailed (msg : String)
  /-- "failed to create poll: %w" -/
  | failedToCreatePoll (e : RepoErr)
  /-- "failed to delete poll: %w" -/
  | failedToDeletePoll (e : RepoErr)
deriving Repr, DecidableEq

instance {ε α : Type} [DecidableEq ε] [DecidableEq α] : DecidableEq (Except ε α)
  | .ok a, .ok b =>
    if h : a = b then .isTrue (by rw [h]) else .isFalse (by simp [h])
  | .ok _, .error _ => .isFalse (by simp)
  | .error _, .ok _ => .isFalse (by simp)
  | .error a, .error b =>
    if h : a = b then .isTrue (by rw [h]) else .isFalse (by simp [h])

namespace PollRepository

/-- PollRepository.GetPollByID: SELECT ... FROM polls WHERE id = $1;
sql.ErrNoRows becomes `none`. -/
def GetPollByID (db : DB) (id : Nat) : Option Poll :=
  db.polls.find? (fun p => p.ID == id)

/-- PollRepository.GetPollOptions: SELECT ... FROM poll_options
WHERE poll_id = $1 ORDER BY position ASC. -/
def GetPollOptions (db : DB) (pollID : Nat) : List PollOption :=
  (db.options.filter (fun o => o.PollID == pollID)).insertionSort
    (fun a b => a.Position ≤ b.Position)

/-- PollRepository.HasVoted: SELECT option_id FROM votes WHERE poll_id = $1
AND voter_identifier = $2; sql.ErrNoRows becomes (false, none). -/
def HasVoted (db : DB) (pollID : Nat) (voterIdentifier : String) :
    Bool × Option Nat :=
  match db.votes.find?
      (fun v => v.PollID == pollID && v.VoterIdentifier == voterIdentifier) with
  | some v => (true, some v.OptionID)
  | none => (false, none)

/-- The committed effect of PollRepository.CastVote's transaction: INSERT
the vote row (id from the generator, voted_at default now), UPDATE
poll_options SET vote_count = vote_count + 1 WHERE id = option_id, and the
AFTER INSERT trigger trigger_update_poll_votes of the schema incrementing
polls.total_votes WHERE id = NEW.poll_id. -/
def applyVote (now : Int) (db : DB) (v : Vote) : DB :=
  { nextId := db.nextId + 1
    polls := db.polls.map (fun p =>
      if p.ID == v.PollID then { p with TotalVotes := p.TotalVotes + 1 } else p)
    options := db.options.map (fun o =>
      if o.ID == v.OptionID then { o with VoteCount := o.VoteCount + 1 } else o)
    votes := { ID := db.nextId, PollID := v.PollID, OptionID := v.OptionID,
               VoterIdentifier := v.VoterIdentifier, VotedAt := now } :: db.votes }

/-- PollRepository.CastVote: one transaction; the INSERT INTO votes fails on
the unique_voter_per_poll constraint (the source comment: "will fail if
voter already voted due to unique constraint") or on a broken foreign key,
each failure wrapped as "failed to cast vote: %w" and rolling the whole
transaction back. -/
def CastVote (now : Int) (db : DB) (v : Vote) : Except RepoErr DB :=
  if db.votes.any (fun w =>
      w.PollID == v.PollID && w.VoterIdentifier == v.VoterIdentifier) then
    .error (.castVoteFailed .uniqueViolation)
  else if !(db.polls.any (fun p => p.ID == v.PollID))
      || !(db.options.any (fun o => o.ID == v.OptionID)) then
    .error (.castVoteFailed .fkViolation)
  else
    .ok (applyVote now db v)

/-- The row effect of the soft-delete UPDATE: is_active := false on the
matching rows. -/
def softDeleteRow (id : Nat) (p : Poll) : Poll :=
  if p.ID == id then { p with IsActive := false } else p

/-- PollRepository.DeletePoll: UPDATE polls SET is_active = false WHERE
id = $1; returns "poll not found" iff RowsAffected = 0. -/
def DeletePoll (db : DB) (id : Nat) : Except RepoErr DB :=
  if db.polls.countP (fun p => p.ID == id) == 0 then
    .error .pollNotFound
  else
    .ok { db with polls := db.polls.map (softDeleteRow id) }

/-- The option-insertion loop of PollRepository.CreatePoll: each row gets
options[i].PollID = poll.ID and options[i].Position = i, and the INSERT
returns the generated id, created_at and the vote_count column default 0. -/
def insertOptions (now : Int) (pollID : Nat) : Nat → Nat → List PollOption → List PollOption
  | _, _, [] => []
  | idNext, i, o :: os =>
    { o with ID := idNext, PollID := pollID, Position := i,
             VoteCount := 0, CreatedAt := now }
      :: insertOptions now pollID (idNext + 1) (i + 1) os

/-- PollRepository.CreatePoll: one transaction inserting the poll row
(RETURNING generated id, created_at, the total_votes default 0) then each
option row; the schema CHECK constraints on question and option text length
can fail an INSERT, rolling the whole transaction back. -/
def CreatePoll (now : Int) (db : DB) (poll : Poll) (options : List PollOption) :
    Except RepoErr (DB × Poll × List PollOption) :=
  if poll.Question.length < 5 ∨ 500 < poll.Question.length then
    .error (.insertPollFailed .checkViolation)
  else if options.any (fun o =>
      decide (o.OptionText.length < 1 ∨ 200 < o.OptionText.length)) then
    .error (.insertOptionFailed .checkViolation)
  else
    let poll' := { poll with ID := db.nextId, CreatedAt := now, TotalVotes := 0 }
    let opts := insertOptions now db.nextId (db.nextId + 1) 0 options
    .ok ({ nextId := db.nextId + 1 + options.length
           polls := poll' :: db.polls
           options := db.options ++ opts
           votes := db.votes }, poll', opts)

end PollRepository

namespace PollService

/-- The expiry test of the service: expiresAt != nil &&
expiresAt.Before(now) — strict. -/
def expired (now : Int) : Option Int → Bool
  | none => false
  | some t => decide (t < now)

/-- The option-construction loop of PollService.CreatePoll:
options[i] = PollOption{OptionText: optText, Position: i}, the remaining
fields Go zero values. -/
def buildOptions : Nat → List String → List PollOption
  | _, [] => []
  | i, t :: ts =>
    { ID := 0, PollID := 0, OptionText := t, VoteCount := 0,
      Position := i, CreatedAt := 0 }
      :: buildOptions (i + 1) ts

/-- PollService.CreatePoll: the validations in source order, then the
repository transaction; paired with the store state afterwards (unchanged
unless the transaction committed). -/
def CreatePoll (now : Int) (db : DB) (req : CreatePollRequest) :
    Except SvcErr PollWithOptions × DB :=
  if req.Question.length < 5 ∨ 500 < req.Question.length then
    (.error (.validationFailed "question must be between 5 and 500 characters"), db)
  else if req.Options.length < 2 then
    (.error (.validationFailed "poll must have at least 2 options"), db)
  else if 10 < req.Options.length then
    (.error (.validationFailed "poll can have at most 10 options"), db)
  else
    match req.Options.findIdx? (fun t => decide (t.length < 1 ∨ 200 < t.length)) with
    | some i =>
      (.error (.validationFailed
        ("option " ++ toString (i + 1) ++ " must be between 1 and 200 characters")), db)
    | none =>
      if expired now req.ExpiresAt then
        (.error (.validationFailed "expiration date must be in the future"), db)
      else
        let poll : Poll :=
          { ID := 0, Question := req.Question, Description := req.Description,
            CreatedAt := 0, ExpiresAt := req.ExpiresAt, IsActive := true,
            TotalVotes := 0 }
        match PollRepository.CreatePoll now db poll (buildOptions 0 req.Options) with
        | .error e => (.error (.failedToCreatePoll e), db)
        | .ok (db', poll', options') => (.ok { toPoll := poll', Options := options' }, db')

/-- The repository responses one PollService.CastVote call observes.  A
record of independent responses can be mutually inconsistent, which is
exactly the advisory-check race of the spec (HasVoted answers false while
the later INSERT still hits unique_voter_per_poll). -/
structure CastVoteCalls where
  getPollByID : Except StoreErr (Option Poll)
  hasVoted : Except StoreErr (Bool × Option Nat)
  getPollOptions : Except StoreErr (List PollOption)
  castVote : Except RepoErr Unit
deriving Repr, DecidableEq

/-- PollService.CastVote: load poll, active check, expiry check, prior-vote
check (the second returned value is discarded), option-membership loop,
then the repository insert, each step short-circuiting to its error. -/
def CastVote (now : Int) (r : CastVoteCalls) (optionID : Nat) : Except SvcErr Unit :=
  match r.getPollByID with
  | .error e => .error (.failedToGetPoll e)
  | .ok none => .error .pollNotFound
  | .ok (some poll) =>
    if !poll.IsActive then .error .pollNotActive
    else if expired now poll.ExpiresAt then .error .pollExpired
    else
      match r.hasVoted with
      | .error e => .error (.failedToCheckVoteStatus e)
      | .ok (hasVoted, _) =>
        if hasVoted then .error .alreadyVoted
        else
          match r.getPollOptions with
          | .error e => .error (.failedToGetOptions e)
          | .ok options =>
            let validOption := options.any (fun o => o.ID == optionID)
            if !validOption then .error .invalidOption
            else
              match r.castVote with
              | .error e => .error (.failedToCastVote e)
              | .ok _ => .ok ()

/-- The single-threaded responses the repository over store `db` gives one
CastVote call. -/
def castVoteCallsDB (now : Int) (db : DB) (pollID optionID : Nat) (voter : String) :
    CastVoteCalls :=
  { getPollByID := .ok (PollRepository.GetPollByID db pollID)
    hasVoted := .ok (PollRepository.HasVoted db pollID voter)
    getPollOptions := .ok (PollRepository.GetPollOptions db pollID)
    castVote := (PollRepository.CastVote now db
      { ID := 0, PollID := pollID, OptionID := optionID,
        VoterIdentifier := voter, VotedAt := 0 }).map (fun _ => ()) }

/-- PollService.CastVote composed with the repository over store `db`: the
call result paired with the store afterwards (unchanged unless the insert
transaction committed). -/
def CastVoteDB (now : Int) (db : DB) (pollID optionID : Nat) (voter : String) :
    Except SvcErr Unit × DB :=
  match CastVote now (castVoteCallsDB now db pollID optionID voter) optionID with
  | .error e => (.error e, db)
  | .ok _ =>
    match PollRepository.CastVote now db
        { ID := 0, PollID := pollID, OptionID := optionID,
          VoterIdentifier := voter, VotedAt := 0 } with
    | .ok db' => (.ok (), db')
    | .error _ => (.ok (), db)

/-- The repository responses one PollService.GetPollResults call observes. -/
structure ResultsCalls where
  getPollByID : Except StoreErr (Option Poll)
  getPollOptions : Except StoreErr (List PollOption)
  hasVoted : Except StoreErr (Bool × Option Nat)
deriving Repr, DecidableEq

/-- The percentage computation of PollService.GetPollResults:
float64(voteCount) / float64(totalVotes) * 100 when totalVotes > 0, else
0.0; float64 arithmetic modelled exactly over ℚ. -/
def percentageOf (totalVotes voteCount : Int) : ℚ :=
  if 0 < totalVotes then (voteCount : ℚ) / (totalVotes : ℚ) * 100 else 0

/-- PollService.GetPollResults: load poll (not-found check), load options,
HasVoted lookup whose failure is only logged — the repository's error
return values (false, nil) flow into the result — then the percentage
computation per option. -/
def GetPollResults (r : ResultsCalls) : Except SvcErr PollResults :=
  match r.getPollByID with
  | .error e => .error (.failedToGetPoll e)
  | .ok none => .error .pollNotFound
  | .ok (some poll) =>
    match r.getPollOptions with
    | .error e => .error (.failedToGetOptions e)
    | .ok options =>
      let hv : Bool × Option Nat :=
        match r.hasVoted with
        | .ok p => p
        | .error _ => (false, none)
      .ok { poll := poll
            Options := options.map (fun o =>
              { toPollOption := o,
                Percentage := percentageOf poll.TotalVotes o.VoteCount })
            TotalVotes := poll.TotalVotes
            HasVoted := hv.1
            VotedOption := hv.2 }

/-- The parameter normalisation at the top of PollService.ListPolls:
limit <= 0 || limit > 100 becomes the default 20, offset < 0 becomes 0; the
pair is what reaches the repository query. -/
def listPollsParams (limit offset : Int) : Int × Int :=
  let limit := if limit ≤ 0 ∨ 100 < limit then 20 else limit
  let offset := if offset < 0 then 0 else offset
  (limit, offset)

/-- PollService.DeletePoll over store `db`: the repository soft delete,
errors wrapped as "failed to delete poll: %w". -/
def DeletePollDB (db : DB) (pollID : Nat) : Except SvcErr Unit × DB :=
  match PollRepository.DeletePoll db pollID with
  | .error e => (.error (.failedToDeletePoll e), db)
  | .ok db' => (.ok (), db')

/-- Fold a sequence of CastVote requests (time, poll id, option id, voter)
through the service and the store. -/
def runVotes : DB → List (Int × Nat × Nat × String) → DB
  | db, [] => db
  | db, (now, pid, oid, voter) :: rest =>
    runVotes (CastVoteDB now db pid oid voter).2 rest

end PollService

/-- Sum of the vote_count column over the poll's option rows. -/
def optionVoteSum (db : DB) (pollID : Nat) : Int :=
  ((db.options.filter (fun o => o.PollID == pollID)).map (fun o => o.VoteCount)).sum

/-- Sum of total_votes over the poll rows with this id (with unique ids,
the poll's counter). -/
def pollTotalVotes (db : DB) (pollID : Nat) : Int :=
  ((db.polls.filter (fun p => p.ID == pollID)).map (fun p => p.TotalVotes)).sum

/-- The derived-counter invariant of the spec for one poll: the option
counters of the poll sum to the poll counter. -/
def countersAgree (db : DB) (pollID : Nat) : Prop :=
  optionVoteSum db pollID = pollTotalVotes db pollID

instance (db : DB) (pollID : Nat) : Decidable (countersAgree db pollID) := by
  unfold countersAgree; infer_instance

/-- Store well-formedness guaranteed by the schema and id generation:
primary keys unique, every stored id below the generator's next value,
option rows reference generated poll ids. -/
def DB.Wf (db : DB) : Prop :=
  (db.polls.map (fun p => p.ID)).Nodup ∧
  (db.options.map (fun o => o.ID)).Nodup ∧
  (∀ p ∈ db.polls, p.ID < db.nextId) ∧
  (∀ o ∈ db.options, o.ID < db.nextId) ∧
  (∀ o ∈ db.options, o.PollID < db.nextId)

instance (db : DB) : Decidable db.Wf := by
  unfold DB.Wf; infer_instance

/-! Concrete stores and requests for evaluating the operations at specific
inputs (the example scenario of the spec and its variations). -/

/-- An empty store. -/
def dbEmpty : DB := { nextId := 1, polls := [], options := [], votes := [] }

/-- The example request of the spec: question "Best color?", options Red
and Blue. -/
def reqColors : CreatePollRequest :=
  { Question := "Best color?", Description := none, ExpiresAt := none,
    Options := ["Red", "Blue"] }

/-- The poll row `CreatePoll 10 dbEmpty reqColors` creates. -/
def pollColors : Poll :=
  { ID := 1, Question := "Best color?", Description := none, CreatedAt := 10,
    ExpiresAt := none, IsActive := true, TotalVotes := 0 }

/-- Its first option row. -/
def optColorsRed : PollOption :=
  { ID := 2, PollID := 1, OptionText := "Red", VoteCount := 0,
    Position := 0, CreatedAt := 10 }

/-- Its second option row. -/
def optColorsBlue : PollOption :=
  { ID := 3, PollID := 1, OptionText := "Blue", VoteCount := 0,
    Position := 1, CreatedAt := 10 }

/-- The created poll with its options, as returned. -/
def pwColors : PollWithOptions :=
  { toPoll := pollColors, Options := [optColorsRed, optColorsBlue] }

/-- The store right after the creation. -/
def dbColors : DB :=
  { nextId := 4, polls := [pollColors],
    options := [optColorsRed, optColorsBlue], votes := [] }

/-- The store after soft-deleting the poll. -/
def dbColorsDeleted : DB :=
  { dbColors with polls := [{ pollColors with IsActive := false }] }

/-- A store holding the same poll but with expiry timestamp 5 (in the past
for now = 11). -/
def dbExp : DB :=
  { nextId := 4
    polls := [{ pollColors with CreatedAt := 0, ExpiresAt := some 5 }]
    options := [optColorsRed, optColorsBlue]
    votes := [] }

/-- The store after a concurrent request by voter v1 committed its vote for
option Red: the race winner's state. -/
def dbRace : DB :=
  { nextId := 5
    polls := [{ pollColors with TotalVotes := 1 }]
    options := [{ optColorsRed with VoteCount := 1 }, optColorsBlue]
    votes := [{ ID := 4, PollID := 1, OptionID := 2,
                VoterIdentifier := "v1", VotedAt := 11 }] }

/-- The responses the losing request of the duplicate-vote race observes:
poll, prior-vote check and options all read before the winner committed
(so HasVoted answered false), while the INSERT runs against the winner's
state and hits unique_voter_per_poll. -/
def raceCalls : PollService.CastVoteCalls :=
  { getPollByID := .ok (PollRepository.GetPollByID dbColors 1)
    hasVoted := .ok (PollRepository.HasVoted dbColors 1 "v1")
    getPollOptions := .ok (PollRepository.GetPollOptions dbColors 1)
    castVote := (PollRepository.CastVote 12 dbRace
      { ID := 0, PollID := 1, OptionID := 3,
        VoterIdentifier := "v1", VotedAt := 0 }).map (fun _ => ()) }

/-- The poll row after two votes. -/
def pollVoted : Poll := { pollColors with TotalVotes := 2 }

/-- Red with one vote. -/
def optRed1 : PollOption := { optColorsRed with VoteCount := 1 }

/-- Blue with one vote. -/
def optBlue1 : PollOption := { optColorsBlue with VoteCount := 1 }

/-- The results record GetPollResults produces over the two-vote state. -/
def resVoted : PollResults :=
  { poll := pollVoted
    Options := [{ toPollOption := optRed1,
                  Percentage := PollService.percentageOf pollVoted.TotalVotes optRed1.VoteCount },
                { toPollOption := optBlue1,
                  Percentage := PollService.percentageOf pollVoted.TotalVotes optBlue1.VoteCount }]
    TotalVotes := pollVoted.TotalVotes
    HasVoted := false
    VotedOption := none }

/-- The colors request with an expiry equal to the evaluation instant. -/
def reqExpiryNow : CreatePollRequest := { reqColors with ExpiresAt := some 1000 }

/-- A request whose question is too short. -/
def reqShort : CreatePollRequest :=
  { Question := "hi", Description := none, ExpiresAt := none,
    Options := ["Red", "Blue"] }

/-! Generic list accounting lemmas. -/

/-- Mapping an update that adds 1 to `val` exactly on rows hit by `hit` and
never changes `keep` shifts the kept sum by the number of rows both hit and
kept. -/
theorem sum_map_filter_update {α : Type} (f : α → α) (keep hit : α → Bool) (val : α → Int)
    (hkeep : ∀ a, keep (f a) = keep a)
    (hval : ∀ a, val (f a) = val a + (if hit a then 1 else 0))
    (l : List α) :
    (((l.map f).filter keep).map val).sum
      = ((l.filter keep).map val).sum + (l.countP (fun a => hit a && keep a) : Int) := by
  induction l with
  | nil => simp
  | cons a l ih =>
    simp only [List.map_cons, List.filter_cons, List.countP_cons, hkeep]
    by_cases hk : keep a = true
    · by_cases hh : hit a = true
      · simp only [hk, hh, if_true, Bool.and_self, List.map_cons, List.sum_cons, hval a, ih]
        push_cast
        ring
      · simp only [hk, hh, if_true, Bool.false_and, if_false, List.map_cons,
          List.sum_cons, hval a, ih]
        push_cast
        ring
    · have hk' : keep a = false := by revert hk; cases keep a <;> simp
      by_cases hh : hit a = true
      · simpa only [hk', hh, if_false, Bool.and_false] using ih
      · have hh' : hit a = false := by revert hh; cases hit a <;> simp
        simpa only [hk', hh', if_false, Bool.and_self] using ih

/-- Counting with a predicate that pins the key of a row present in a
key-unique list gives exactly one. -/
theorem countP_eq_one_key {α : Type} (key : α → Nat) (p : α → Bool) (l : List α) (r : α)
    (hnd : (l.map key).Nodup) (hmem : r ∈ l) (hpr : p r = true)
    (hkey : ∀ b, p b = true → key b = key r) :
    l.countP p = 1 := by
  induction l with
  | nil => cases hmem
  | cons a l ih =>
    rw [List.map_cons, List.nodup_cons] at hnd
    rcases List.mem_cons.mp hmem with rfl | hmem'
    · rw [List.countP_cons, if_pos hpr]
      have hz : l.countP p = 0 := by
        rw [List.countP_eq_zero]
        intro b hb hpb
        exact hnd.1 (by rw [← hkey b hpb]; exact List.mem_map_of_mem key hb)
      omega
    · have hpa : ¬ p a = true := by
        intro hpt
        exact hnd.1 (by rw [hkey a hpt]; exact List.mem_map_of_mem key hmem')
      rw [List.countP_cons, if_neg hpa, ih hnd.2 hmem']

/-! Inversion lemmas for the repository queries. -/

theorem getPollByID_some {db : DB} {pid : Nat} {p : Poll}
    (h : PollRepository.GetPollByID db pid = some p) :
    p ∈ db.polls ∧ p.ID = pid := by
  refine ⟨List.mem_of_find?_eq_some h, ?_⟩
  have hp := List.find?_some h
  simpa [beq_iff_eq] using hp

theorem getPollOptions_mem {db : DB} {pid : Nat} {o : PollOption} :
    o ∈ PollRepository.GetPollOptions db pid ↔ o ∈ db.options ∧ o.PollID = pid := by
  unfold PollRepository.GetPollOptions
  rw [List.mem_insertionSort, List.mem_filter]
  simp [beq_iff_eq]

theorem hasVoted_false_no_row {db : DB} {pid : Nat} {voter : String}
    (h : (PollRepository.HasVoted db pid voter).1 = false) :
    db.votes.any (fun v => v.PollID == pid && v.VoterIdentifier == voter) = false := by
  unfold PollRepository.HasVoted at h
  cases hf : db.votes.find? (fun v => v.PollID == pid && v.VoterIdentifier == voter) with
  | some v => rw [hf] at h; simp at h
  | none =>
    rw [List.any_eq_false]
    intro v hv
    exact List.find?_eq_none.mp hf v hv

/-! Case lemmas for the composed CastVote operation. -/

theorem castVoteDB_pollNotFound {now : Int} {db : DB} {pid oid : Nat} {voter : String}
    (h : PollRepository.GetPollByID db pid = none) :
    PollService.CastVoteDB now db pid oid voter = (.error .pollNotFound, db) := by
  unfold PollService.CastVoteDB PollService.CastVote PollService.castVoteCallsDB
  simp [h]

theorem castVoteDB_inactive {now : Int} {db : DB} {pid oid : Nat} {voter : String} {p : Poll}
    (h : PollRepository.GetPollByID db pid = some p) (ha : p.IsActive = false) :
    PollService.CastVoteDB now db pid oid voter = (.error .pollNotActive, db) := by
  unfold PollService.CastVoteDB PollService.CastVote PollService.castVoteCallsDB
  simp [h, ha]

theorem castVoteDB_expired {now : Int} {db : DB} {pid oid : Nat} {voter : String} {p : Poll}
    (h : PollRepository.GetPollByID db pid = some p) (ha : p.IsActive = true)
    (he : PollService.expired now p.ExpiresAt = true) :
    PollService.CastVoteDB now db pid oid voter = (.error .pollExpired, db) := by
  unfold PollService.CastVoteDB PollService.CastVote PollService.castVoteCallsDB
  simp [h, ha, he]

theorem castVoteDB_alreadyVoted {now : Int} {db : DB} {pid oid : Nat} {voter : String} {p : Poll}
    (h : PollRepository.GetPollByID db pid = some p) (ha : p.IsActive = true)
    (he : PollService.expired now p.ExpiresAt = false)
    (hv : (PollRepository.HasVoted db pid voter).1 = true) :
    PollService.CastVoteDB now db pid oid voter = (.error .alreadyVoted, db) := by
  unfold PollService.CastVoteDB PollService.CastVote PollService.castVoteCallsDB
  cases hHV : PollRepository.HasVoted db pid voter with
  | mk b vo =>
    rw [hHV] at hv
    simp at hv
    simp [h, ha, he, hHV, hv]

theorem castVoteDB_invalidOption {now : Int} {db : DB} {pid oid : Nat} {voter : String} {p : Poll}
    (h : PollRepository.GetPollByID db pid = some p) (ha : p.IsActive = true)
    (he : PollService.expired now p.ExpiresAt = false)
    (hv : (PollRepository.HasVoted db pid voter).1 = false)
    (ho : (PollRepository.GetPollOptions db pid).any (fun o => o.ID == oid) = false) :
    PollService.CastVoteDB now db pid oid voter = (.error .invalidOption, db) := by
  unfold PollService.CastVoteDB PollService.CastVote PollService.castVoteCallsDB
  cases hHV : PollRepository.HasVoted db pid voter with
  | mk b vo =>
    rw [hHV] at hv
    simp at hv
    simp [h, ha, he, hHV, hv, ho]

theorem castVoteDB_success {now : Int} {db : DB} {pid oid : Nat} {voter : String} {p : Poll}
    (h : PollRepository.GetPollByID db pid = some p) (ha : p.IsActive = true)
    (he : PollService.expired now p.ExpiresAt = false)
    (hv : (PollRepository.HasVoted db pid voter).1 = false)
    (ho : (PollRepository.GetPollOptions db pid).any (fun o => o.ID == oid) = true) :
    PollService.CastVoteDB now db pid oid voter =
      (.ok (), PollRepository.applyVote now db
        { ID := 0, PollID := pid, OptionID := oid,
          VoterIdentifier := voter, VotedAt := 0 }) := by
  have hnovote := hasVoted_false_no_row hv
  have hpollFK : db.polls.any (fun q => q.ID == pid) = true := by
    rw [List.any_eq_true]
    obtain ⟨hm, hid⟩ := getPollByID_some h
    exact ⟨p, hm, by simp [beq_iff_eq, hid]⟩
  have hoptFK : db.options.any (fun o => o.ID == oid) = true := by
    rw [List.any_eq_true]
    rw [List.any_eq_true] at ho
    obtain ⟨o, hoMem, hoid⟩ := ho
    exact ⟨o, (getPollOptions_mem.mp hoMem).1, hoid⟩
  have hrepo : PollRepository.CastVote now db
      { ID := 0, PollID := pid, OptionID := oid,
        VoterIdentifier := voter, VotedAt := 0 } =
      .ok (PollRepository.applyVote now db
        { ID := 0, PollID := pid, OptionID := oid,
          VoterIdentifier := voter, VotedAt := 0 }) := by
    unfold PollRepository.CastVote
    simp [hnovote, hpollFK, hoptFK]
  unfold PollService.CastVoteDB PollService.CastVote PollService.castVoteCallsDB
  cases hHV : PollRepository.HasVoted db pid voter with
  | mk b vo =>
    rw [hHV] at hv
    simp at hv
    simp [h, ha, he, hHV, hv, ho, hrepo, Except.map]

/-! Preservation of well-formedness and of the counter invariant by the
vote insertion. -/

theorem applyVote_polls_ID {now : Int} {db : DB} {v : Vote} :
    (PollRepository.applyVote now db v).polls.map (fun p => p.ID)
      = db.polls.map (fun p => p.ID) := by
  unfold PollRepository.applyVote
  dsimp only
  rw [List.map_map]
  refine List.map_congr_left ?_
  intro a _
  by_cases h : a.ID = v.PollID <;> simp [h]

theorem applyVote_options_ID {now : Int} {db : DB} {v : Vote} :
    (PollRepository.applyVote now db v).options.map (fun o => o.ID)
      = db.options.map (fun o => o.ID) := by
  unfold PollRepository.applyVote
  dsimp only
  rw [List.map_map]
  refine List.map_congr_left ?_
  intro a _
  by_cases h : a.ID = v.OptionID <;> simp [h]

theorem applyVote_wf {now : Int} {db : DB} {v : Vote} (hwf : db.Wf) :
    (PollRepository.applyVote now db v).Wf := by
  obtain ⟨h1, h2, h3, h4, h5⟩ := hwf
  refine ⟨?_, ?_, ?_, ?_, ?_⟩
  · rw [applyVote_polls_ID]; exact h1
  · rw [applyVote_options_ID]; exact h2
  · intro p hp
    unfold PollRepository.applyVote at hp ⊢
    dsimp only at hp ⊢
    obtain ⟨a, haMem, rfl⟩ := List.mem_map.mp hp
    have hlt := h3 a haMem
    by_cases h : a.ID = v.PollID <;> simp [h] <;> omega
  · intro o ho
    unfold PollRepository.applyVote at ho ⊢
    dsimp only at ho ⊢
    obtain ⟨a, haMem, rfl⟩ := List.mem_map.mp ho
    have hlt := h4 a haMem
    by_cases h : a.ID = v.OptionID <;> simp [h] <;> omega
  · intro o ho
    unfold PollRepository.applyVote at ho ⊢
    dsimp only at ho ⊢
    obtain ⟨a, haMem, rfl⟩ := List.mem_map.mp ho
    have hlt := h5 a haMem
    by_cases h : a.ID = v.OptionID <;> simp [h] <;> omega

theorem applyVote_countersAgree {now : Int} {db : DB} {v : Vote} {qid : Nat}
    (hwf : db.Wf)
    (hpoll : ∃ p ∈ db.polls, p.ID = v.PollID)
    (hopt : ∃ o ∈ db.options, o.PollID = v.PollID ∧ o.ID = v.OptionID)
    (h : countersAgree db qid) :
    countersAgree (PollRepository.applyVote now db v) qid := by
  obtain ⟨hndP, hndO, -, -, -⟩ := hwf
  obtain ⟨p, hpMem, hpID⟩ := hpoll
  obtain ⟨o, hoMem, hoPID, hoID⟩ := hopt
  unfold countersAgree optionVoteSum pollTotalVotes at h ⊢
  unfold PollRepository.applyVote
  dsimp only
  rw [sum_map_filter_update
        (fun o => if o.ID == v.OptionID then { o with VoteCount := o.VoteCount + 1 } else o)
        (fun o => o.PollID == qid) (fun o => o.ID == v.OptionID) (fun o => o.VoteCount)
        (by intro a; by_cases hx : a.ID = v.OptionID <;> simp [hx])
        (by intro a; by_cases hx : a.ID = v.OptionID <;> simp [hx])
        db.options,
      sum_map_filter_update
        (fun p => if p.ID == v.PollID then { p with TotalVotes := p.TotalVotes + 1 } else p)
        (fun p => p.ID == qid) (fun p => p.ID == v.PollID) (fun p => p.TotalVotes)
        (by intro a; by_cases hx : a.ID = v.PollID <;> simp [hx])
        (by intro a; by_cases hx : a.ID = v.PollID <;> simp [hx])
        db.polls,
      h]
  congr 1
  by_cases hq : qid = v.PollID
  · subst hq
    rw [countP_eq_one_key (fun o => o.ID) _ _ o hndO hoMem
          (by simp [beq_iff_eq, hoID, hoPID])
          (by intro b hb
              simp only [beq_iff_eq, Bool.and_eq_true, decide_eq_true_eq] at hb
              dsimp only
              rw [hb.1, hoID]),
        countP_eq_one_key (fun p => p.ID) _ _ p hndP hpMem
          (by simp [beq_iff_eq, hpID])
          (by intro b hb
              simp only [beq_iff_eq, Bool.and_eq_true, decide_eq_true_eq] at hb
              dsimp only
              rw [hb.1, hpID])]
  · have hA : db.options.countP
        (fun a => (a.ID == v.OptionID) && (a.PollID == qid)) = 0 := by
      rw [List.countP_eq_zero]
      intro a haMem hpa
      simp only [beq_iff_eq, Bool.and_eq_true, decide_eq_true_eq] at hpa
      have haeq : a = o :=
        List.inj_on_of_nodup_map hndO haMem hoMem (by rw [hpa.1, hoID])
      refine hq ?_
      rw [← hpa.2, haeq, hoPID]
    have hB : db.polls.countP
        (fun a => (a.ID == v.PollID) && (a.ID == qid)) = 0 := by
      rw [List.countP_eq_zero]
      intro a _ hpa
      simp only [beq_iff_eq, Bool.and_eq_true, decide_eq_true_eq] at hpa
      refine hq ?_
      rw [← hpa.2, hpa.1]
    rw [hA, hB]

/-- Total case analysis of the composed CastVote: the store is unchanged,
or the insert committed and the poll row and the matching option row of
this poll existed. -/
theorem castVoteDB_snd_cases (now : Int) (db : DB) (pid oid : Nat) (voter : String) :
    (PollService.CastVoteDB now db pid oid voter).2 = db ∨
    ((PollService.CastVoteDB now db pid oid voter).2 =
        PollRepository.applyVote now db
          { ID := 0, PollID := pid, OptionID := oid,
            VoterIdentifier := voter, VotedAt := 0 } ∧
      (∃ p ∈ db.polls, p.ID = pid) ∧
      (∃ o ∈ db.options, o.PollID = pid ∧ o.ID = oid)) := by
  cases hp : PollRepository.GetPollByID db pid with
  | none => left; rw [castVoteDB_pollNotFound hp]
  | some p =>
    cases ha : p.IsActive with
    | false => left; rw [castVoteDB_inactive hp ha]
    | true =>
      cases he : PollService.expired now p.ExpiresAt with
      | true => left; rw [castVoteDB_expired hp ha he]
      | false =>
        cases hv : (PollRepository.HasVoted db pid voter).1 with
        | true => left; rw [castVoteDB_alreadyVoted hp ha he hv]
        | false =>
          cases ho : (PollRepository.GetPollOptions db pid).any (fun o => o.ID == oid) with
          | false => left; rw [castVoteDB_invalidOption hp ha he hv ho]
          | true =>
            right
            refine ⟨by rw [castVoteDB_success hp ha he hv ho], ?_, ?_⟩
            · obtain ⟨hm, hid⟩ := getPollByID_some hp
              exact ⟨p, hm, hid⟩
            · rw [List.any_eq_true] at ho
              obtain ⟨o, hoMem, hoid⟩ := ho
              obtain ⟨hm1, hm2⟩ := getPollOptions_mem.mp hoMem
              exact ⟨o, hm1, hm2, by simpa [beq_iff_eq] using hoid⟩

theorem castVoteDB_wf {now : Int} {db : DB} {pid oid : Nat} {voter : String}
    (hwf : db.Wf) :
    (PollService.CastVoteDB now db pid oid voter).2.Wf := by
  rcases castVoteDB_snd_cases now db pid oid voter with h | ⟨h, -, -⟩
  · rw [h]; exact hwf
  · rw [h]; exact applyVote_wf hwf

theorem castVoteDB_countersAgree {now : Int} {db : DB} {pid oid qid : Nat} {voter : String}
    (hwf : db.Wf) (hc : countersAgree db qid) :
    countersAgree (PollService.CastVoteDB now db pid oid voter).2 qid := by
  rcases castVoteDB_snd_cases now db pid oid voter with h | ⟨h, hpoll, hopt⟩
  · rw [h]; exact hc
  · rw [h]
    exact applyVote_countersAgree hwf hpoll hopt hc

/-! Facts about the option-construction and option-insertion loops. -/

theorem buildOptions_length (i : Nat) (ts : List String) :
    (PollService.buildOptions i ts).length = ts.length := by
  induction ts generalizing i with
  | nil => rfl
  | cons t ts ih => simp [PollService.buildOptions, ih]

theorem buildOptions_map_OptionText (i : Nat) (ts : List String) :
    (PollService.buildOptions i ts).map (fun o => o.OptionText) = ts := by
  induction ts generalizing i with
  | nil => rfl
  | cons t ts ih => simp [PollService.buildOptions, ih]

theorem insertOptions_length (now : Int) (pollID idNext i : Nat) (l : List PollOption) :
    (PollRepository.insertOptions now pollID idNext i l).length = l.length := by
  induction l generalizing idNext i with
  | nil => rfl
  | cons o os ih => simp [PollRepository.insertOptions, ih]

theorem insertOptions_map_ID (now : Int) (pollID idNext i : Nat) (l : List PollOption) :
    (PollRepository.insertOptions now pollID idNext i l).map (fun o => o.ID)
      = List.range' idNext l.length := by
  induction l generalizing idNext i with
  | nil => rfl
  | cons o os ih => simp [PollRepository.insertOptions, List.range'_succ, ih]

theorem insertOptions_map_Position (now : Int) (pollID idNext i : Nat) (l : List PollOption) :
    (PollRepository.insertOptions now pollID idNext i l).map (fun o => o.Position)
      = List.range' i l.length := by
  induction l generalizing idNext i with
  | nil => rfl
  | cons o os ih => simp [PollRepository.insertOptions, List.range'_succ, ih]

theorem insertOptions_map_OptionText (now : Int) (pollID idNext i : Nat) (l : List PollOption) :
    (PollRepository.insertOptions now pollID idNext i l).map (fun o => o.OptionText)
      = l.map (fun o => o.OptionText) := by
  induction l generalizing idNext i with
  | nil => rfl
  | cons o os ih => simp [PollRepository.insertOptions, ih]

theorem insertOptions_mem (now : Int) (pollID idNext i : Nat) (l : List PollOption) :
    ∀ o ∈ PollRepository.insertOptions now pollID idNext i l,
      o.PollID = pollID ∧ o.VoteCount = 0 := by
  induction l generalizing idNext i with
  | nil => intro o ho; cases ho
  | cons a as ih =>
    intro o ho
    rcases List.mem_cons.mp ho with rfl | ho'
    · exact ⟨rfl, rfl⟩
    · exact ih (idNext + 1) (i + 1) o ho'

/-! Inversion of a successful CreatePoll. -/

theorem createPoll_ok_inversion {now : Int} {db : DB} {req : CreatePollRequest}
    {pw : PollWithOptions} {db₁ : DB}
    (hok : PollService.CreatePoll now db req = (.ok pw, db₁)) :
    pw.toPoll =
      { ID := db.nextId, Question := req.Question, Description := req.Description,
        CreatedAt := now, ExpiresAt := req.ExpiresAt, IsActive := true,
        TotalVotes := 0 } ∧
    pw.Options = PollRepository.insertOptions now db.nextId (db.nextId + 1) 0
      (PollService.buildOptions 0 req.Options) ∧
    db₁ = { nextId := db.nextId + 1 + req.Options.length,
            polls := pw.toPoll :: db.polls,
            options := db.options ++ pw.Options,
            votes := db.votes } ∧
    2 ≤ req.Options.length ∧ req.Options.length ≤ 10 := by
  unfold PollService.CreatePoll at hok
  split at hok
  · simp at hok
  · split at hok
    · simp at hok
    · split at hok
      · simp at hok
      · split at hok
        · simp at hok
        · split at hok
          · simp at hok
          · dsimp only at hok
            split at hok
            · simp at hok
            · rename_i hq hc2 hc10 hbad hexp db' poll' options' heq
              unfold PollRepository.CreatePoll at heq
              split at heq
              · cases heq
              · split at heq
                · cases heq
                · rw [Except.ok.injEq, Prod.mk.injEq, Prod.mk.injEq] at heq
                  obtain ⟨hdb', hpoll', hopts'⟩ := heq
                  rw [Prod.mk.injEq, Except.ok.injEq] at hok
                  obtain ⟨hpw, hdb₁⟩ := hok
                  subst hpw
                  constructor
                  · rw [← hpoll']
                  constructor
                  · rw [← hopts']
                  constructor
                  · rw [← hdb₁, ← hdb']
                    rw [← hpoll', ← hopts']
                    simp [buildOptions_length]
                  constructor
                  · omega
                  · omega

theorem createPoll_ok_wf {now : Int} {db : DB} {req : CreatePollRequest}
    {pw : PollWithOptions} {db₁ : DB}
    (hwf : db.Wf) (hok : PollService.CreatePoll now db req = (.ok pw, db₁)) :
    db₁.Wf := by
  obtain ⟨hpoll, hopts, hdb₁, -, -⟩ := createPoll_ok_inversion hok
  obtain ⟨h1, h2, h3, h4, h5⟩ := hwf
  have hIDs : pw.Options.map (fun o => o.ID)
      = List.range' (db.nextId + 1) req.Options.length := by
    rw [hopts, insertOptions_map_ID, buildOptions_length]
  have hOmem : ∀ o ∈ pw.Options, o.PollID = db.nextId ∧ o.VoteCount = 0 := by
    intro o ho
    rw [hopts] at ho
    exact insertOptions_mem now db.nextId (db.nextId + 1) 0 _ o ho
  have hOID : ∀ o ∈ pw.Options, db.nextId + 1 ≤ o.ID ∧ o.ID < db.nextId + 1 + req.Options.length := by
    intro o ho
    have : o.ID ∈ List.range' (db.nextId + 1) req.Options.length := by
      rw [← hIDs]
      exact List.mem_map_of_mem _ ho
    rw [List.mem_range'] at this
    obtain ⟨j, hj, hje⟩ := this
    omega
  subst hdb₁
  refine ⟨?_, ?_, ?_, ?_, ?_⟩
  · rw [List.map_cons, List.nodup_cons]
    refine ⟨?_, h1⟩
    intro hmem
    rw [List.mem_map] at hmem
    obtain ⟨a, haMem, haID⟩ := hmem
    have := h3 a haMem
    rw [haID, hpoll] at this
    simp at this
  · rw [List.map_append]
    refine List.Nodup.append h2 ?_ ?_
    · rw [hIDs]
      exact List.nodup_range' _ _
    · intro x hx1 hx2
      rw [List.mem_map] at hx1
      obtain ⟨a, haMem, haID⟩ := hx1
      have hlt := h4 a haMem
      rw [hIDs, List.mem_range'] at hx2
      obtain ⟨j, hj, hje⟩ := hx2
      omega
  · intro p hp
    dsimp only
    rcases List.mem_cons.mp hp with rfl | hp'
    · rw [hpoll]
      dsimp only
      omega
    · have := h3 p hp'
      omega
  · intro o ho
    dsimp only
    rcases List.mem_append.mp ho with ho' | ho'
    · have := h4 o ho'
      omega
    · have := (hOID o ho').2
      omega
  · intro o ho
    dsimp only
    rcases List.mem_append.mp ho with ho' | ho'
    · have := h5 o ho'
      omega
    · have := (hOmem o ho').1
      omega

theorem createPoll_ok_countersAgree {now : Int} {db : DB} {req : CreatePollRequest}
    {pw : PollWithOptions} {db₁ : DB}
    (hwf : db.Wf) (hok : PollService.CreatePoll now db req = (.ok pw, db₁)) :
    countersAgree db₁ pw.ID := by
  obtain ⟨hpoll, hopts, hdb₁, -, -⟩ := createPoll_ok_inversion hok
  obtain ⟨-, -, h3, -, h5⟩ := hwf
  have hpwID : pw.ID = db.nextId := by rw [show pw.ID = pw.toPoll.ID from rfl, hpoll]
  have hOmem : ∀ o ∈ pw.Options, o.PollID = db.nextId ∧ o.VoteCount = 0 := by
    intro o ho
    rw [hopts] at ho
    exact insertOptions_mem now db.nextId (db.nextId + 1) 0 _ o ho
  subst hdb₁
  unfold countersAgree optionVoteSum pollTotalVotes
  dsimp only
  rw [hpwID, List.filter_append, List.filter_cons]
  have hOld : db.options.filter (fun o => o.PollID == db.nextId) = [] := by
    rw [List.filter_eq_nil_iff]
    intro a haMem
    have := h5 a haMem
    simp [beq_iff_eq]
    omega
  have hOldP : db.polls.filter (fun p => p.ID == db.nextId) = [] := by
    rw [List.filter_eq_nil_iff]
    intro a haMem
    have := h3 a haMem
    simp [beq_iff_eq]
    omega
  have hNewSum : ((pw.Options.filter (fun o => o.PollID == db.nextId)).map
      (fun o => o.VoteCount)).sum = 0 := by
    have hfilter : pw.Options.filter (fun o => o.PollID == db.nextId) = pw.Options := by
      rw [List.filter_eq_self]
      intro a haMem
      simp [beq_iff_eq, (hOmem a haMem).1]
    rw [hfilter]
    refine List.sum_eq_zero ?_
    intro x hx
    rw [List.mem_map] at hx
    obtain ⟨a, haMem, hax⟩ := hx
    rw [← hax]
    exact (hOmem a haMem).2
  rw [hOld, hOldP, List.nil_append, hNewSum]
  have hcond : ((pw.toPoll.ID == db.nextId) : Bool) = true := by
    have : pw.toPoll.ID = db.nextId := by rw [hpoll]
    simp [beq_iff_eq, this]
  rw [if_pos hcond]
  have hzero : pw.toPoll.TotalVotes = 0 := by rw [hpoll]
  simp [hzero]

/-- The counter invariant survives any sequence of CastVote requests. -/
theorem runVotes_countersAgree (calls : List (Int × Nat × Nat × String)) :
    ∀ db : DB, ∀ qid : Nat, db.Wf → countersAgree db qid →
      countersAgree (PollService.runVotes db calls) qid := by
  induction calls with
  | nil => intro db qid _ hc; exact hc
  | cons c rest ih =>
    intro db qid hwf hc
    obtain ⟨now, pid, oid, voter⟩ := c
    exact ih _ qid (castVoteDB_wf hwf) (castVoteDB_countersAgree hwf hc)

/-! Soft-delete lemmas. -/

theorem deletePollDB_ok {db : DB} {pid : Nat} (h : ∃ p ∈ db.polls, p.ID = pid) :
    PollService.DeletePollDB db pid =
      (.ok (), { db with polls := db.polls.map (PollRepository.softDeleteRow pid) }) := by
  unfold PollService.DeletePollDB PollRepository.DeletePoll
  have hne : ¬ db.polls.countP (fun p => p.ID == pid) = 0 := by
    obtain ⟨p, hm, hid⟩ := h
    intro hz
    rw [List.countP_eq_zero] at hz
    exact hz p hm (by simp [beq_iff_eq, hid])
  simp [hne]

theorem deletePollDB_notFound {db : DB} {pid : Nat} (h : ∀ p ∈ db.polls, p.ID ≠ pid) :
    PollService.DeletePollDB db pid =
      (.error (.failedToDeletePoll .pollNotFound), db) := by
  unfold PollService.DeletePollDB PollRepository.DeletePoll
  have hz : db.polls.countP (fun p => p.ID == pid) = 0 := by
    rw [List.countP_eq_zero]
    intro p hm hpid
    exact h p hm (by simpa [beq_iff_eq] using hpid)
  simp [hz]

theorem softDeleteRow_ID (pid : Nat) (p : Poll) :
    (PollRepository.softDeleteRow pid p).ID = p.ID := by
  unfold PollRepository.softDeleteRow
  by_cases h : p.ID = pid <;> simp [h]

theorem softDelete_all_inactive {db : DB} {pid : Nat} :
    ∀ p ∈ db.polls.map (PollRepository.softDeleteRow pid),
      p.ID = pid → p.IsActive = false := by
  intro p hp hid
  rw [List.mem_map] at hp
  obtain ⟨a, haMem, rfl⟩ := hp
  rw [softDeleteRow_ID] at hid
  unfold PollRepository.softDeleteRow
  simp [hid]

theorem softDelete_getPollByID {db : DB} {pid : Nat} (h : ∃ p ∈ db.polls, p.ID = pid) :
    ∃ q : Poll, PollRepository.GetPollByID
        { db with polls := db.polls.map (PollRepository.softDeleteRow pid) } pid = some q ∧
      q.IsActive = false := by
  unfold PollRepository.GetPollByID
  dsimp only
  rw [List.find?_map]
  have hpred : ((fun q => q.ID == pid) ∘ PollRepository.softDeleteRow pid)
      = fun (p : Poll) => p.ID == pid := by
    funext a
    simp [Function.comp, softDeleteRow_ID]
  rw [hpred]
  have hsome : (db.polls.find? (fun p => p.ID == pid)).isSome := by
    rw [List.find?_isSome]
    obtain ⟨p, hm, hid⟩ := h
    exact ⟨p, hm, by simp [beq_iff_eq, hid]⟩
  cases hf : db.polls.find? (fun p => p.ID == pid) with
  | none => rw [hf] at hsome; simp at hsome
  | some a =>
    have haid : a.ID = pid := by
      have := List.find?_some hf
      simpa [beq_iff_eq] using this
    refine ⟨PollRepository.softDeleteRow pid a, rfl, ?_⟩
    unfold PollRepository.softDeleteRow
    simp [haid]

theorem softDeleteRow_idem (pid : Nat) (p : Poll) :
    PollRepository.softDeleteRow pid (PollRepository.softDeleteRow pid p)
      = PollRepository.softDeleteRow pid p := by
  unfold PollRepository.softDeleteRow
  by_cases h : p.ID = pid <;> simp [h]

/-! The claims. -/

/-- Claim C1: the claim states that a CastVote whose repository insert fails
on the (poll id, voter) uniqueness constraint surfaces the same
DuplicateVoteError the pre-check would have produced.  The code instead
wraps the constraint violation as the generic storage error "failed to cast
vote: %w" at both layers: evaluated at the concrete race (prior-vote check
answered false, insert hits unique_voter_per_poll), the repository returns
the wrapped unique-violation and the service surfaces it as
failedToCastVote — an error distinct from the pre-check's alreadyVoted. -/
theorem castVote_unique_violation_surfaces_storage_error :
    PollRepository.CastVote 12 dbRace
        { ID := 0, PollID := 1, OptionID := 3,
          VoterIdentifier := "v1", VotedAt := 0 }
      = .error (.castVoteFailed .uniqueViolation) ∧
    PollService.CastVote 12 raceCalls 3
      = .error (.failedToCastVote (.castVoteFailed .uniqueViolation)) ∧
    SvcErr.failedToCastVote (.castVoteFailed .uniqueViolation) ≠ SvcErr.alreadyVoted := by
  refine ⟨by decide, by decide, by decide⟩

/-- Claim C2: after a successful CreatePoll and any sequence of CastVote
requests, the sum of the poll's option vote_count fields equals the poll's
total_votes counter (failed casts leave the store unchanged, successful
ones move both sides together). -/
theorem createPoll_vote_sequence_counters_agree
    (now : Int) (db : DB) (req : CreatePollRequest) (pw : PollWithOptions) (db₁ : DB)
    (calls : List (Int × Nat × Nat × String))
    (hwf : db.Wf)
    (hok : PollService.CreatePoll now db req = (.ok pw, db₁)) :
    countersAgree (PollService.runVotes db₁ calls) pw.ID :=
  runVotes_countersAgree calls db₁ pw.ID
    (createPoll_ok_wf hwf hok) (createPoll_ok_countersAgree hwf hok)

/-- Witness for C2 at the spec's example: create "Best color?" and run a
vote for Red by v1, a vote for Blue by v2 and a duplicate attempt by v1. -/
theorem createPoll_vote_sequence_counters_agree_witness :
    dbEmpty.Wf ∧
    PollService.CreatePoll 10 dbEmpty reqColors = (.ok pwColors, dbColors) ∧
    countersAgree
      (PollService.runVotes dbColors [(11, 1, 2, "v1"), (12, 1, 3, "v2"), (13, 1, 3, "v1")])
      pwColors.ID :=
  ⟨by decide, by decide,
    createPoll_vote_sequence_counters_agree 10 dbEmpty reqColors pwColors dbColors
      [(11, 1, 2, "v1"), (12, 1, 3, "v2"), (13, 1, 3, "v1")] (by decide) (by decide)⟩

/-- Claim C3: the CastVote checks run in source order, each failing check
short-circuiting with its error and leaving the store unchanged — absent
poll, inactive poll, expired poll, prior vote by this voter, option not
belonging to the poll — and only when all five pass is the vote row
inserted. -/
theorem castVote_check_order (now : Int) (db : DB) (pid oid : Nat) (voter : String) :
    (PollRepository.GetPollByID db pid = none →
      PollService.CastVoteDB now db pid oid voter = (.error .pollNotFound, db)) ∧
    (∀ p, PollRepository.GetPollByID db pid = some p → p.IsActive = false →
      PollService.CastVoteDB now db pid oid voter = (.error .pollNotActive, db)) ∧
    (∀ p, PollRepository.GetPollByID db pid = some p → p.IsActive = true →
      PollService.expired now p.ExpiresAt = true →
      PollService.CastVoteDB now db pid oid voter = (.error .pollExpired, db)) ∧
    (∀ p, PollRepository.GetPollByID db pid = some p → p.IsActive = true →
      PollService.expired now p.ExpiresAt = false →
      (PollRepository.HasVoted db pid voter).1 = true →
      PollService.CastVoteDB now db pid oid voter = (.error .alreadyVoted, db)) ∧
    (∀ p, PollRepository.GetPollByID db pid = some p → p.IsActive = true →
      PollService.expired now p.ExpiresAt = false →
      (PollRepository.HasVoted db pid voter).1 = false →
      (PollRepository.GetPollOptions db pid).any (fun o => o.ID == oid) = false →
      PollService.CastVoteDB now db pid oid voter = (.error .invalidOption, db)) ∧
    (∀ p, PollRepository.GetPollByID db pid = some p → p.IsActive = true →
      PollService.expired now p.ExpiresAt = false →
      (PollRepository.HasVoted db pid voter).1 = false →
      (PollRepository.GetPollOptions db pid).any (fun o => o.ID == oid) = true →
      PollService.CastVoteDB now db pid oid voter =
        (.ok (), PollRepository.applyVote now db
          { ID := 0, PollID := pid, OptionID := oid,
            VoterIdentifier := voter, VotedAt := 0 }) ∧
      ({ ID := db.nextId, PollID := pid, OptionID := oid,
         VoterIdentifier := voter, VotedAt := now } : Vote)
        ∈ (PollService.CastVoteDB now db pid oid voter).2.votes) := by
  refine ⟨fun h => castVoteDB_pollNotFound h,
    fun p h ha => castVoteDB_inactive h ha,
    fun p h ha he => castVoteDB_expired h ha he,
    fun p h ha he hv => castVoteDB_alreadyVoted h ha he hv,
    fun p h ha he hv ho => castVoteDB_invalidOption h ha he hv ho,
    fun p h ha he hv ho => ?_⟩
  have hs := castVoteDB_success h ha he hv ho
  refine ⟨hs, ?_⟩
  rw [hs]
  unfold PollRepository.applyVote
  dsimp only
  exact List.mem_cons_self _ _

/-- Witness for C3: the all-checks-pass case at the example store. -/
theorem castVote_check_order_witness :
    PollService.CastVoteDB 11 dbColors 1 2 "v1" =
      (.ok (), PollRepository.applyVote 11 dbColors
        { ID := 0, PollID := 1, OptionID := 2,
          VoterIdentifier := "v1", VotedAt := 0 }) ∧
    ({ ID := 4, PollID := 1, OptionID := 2,
       VoterIdentifier := "v1", VotedAt := 11 } : Vote)
      ∈ (PollService.CastVoteDB 11 dbColors 1 2 "v1").2.votes :=
  (castVote_check_order 11 dbColors 1 2 "v1").2.2.2.2.2 pollColors
    (by decide) (by decide) (by decide) (by decide) (by decide)

/-- Claim C4: a CastVote after a successful DeletePoll fails with the
inactive-poll error, and a CastVote when the poll's expiry is set and in
the past fails with the expired error; in both cases the store — and with
it every vote_count and total_votes counter — is unchanged. -/
theorem castVote_after_delete_or_expiry (now : Int) (db : DB) (pid oid : Nat) (voter : String) :
    (∀ db', PollService.DeletePollDB db pid = (.ok (), db') →
      PollService.CastVoteDB now db' pid oid voter = (.error .pollNotActive, db')) ∧
    (∀ p t, PollRepository.GetPollByID db pid = some p → p.IsActive = true →
      p.ExpiresAt = some t → t < now →
      PollService.CastVoteDB now db pid oid voter = (.error .pollExpired, db)) := by
  constructor
  · intro db' hdel
    unfold PollService.DeletePollDB at hdel
    split at hdel
    · simp at hdel
    · rename_i db'' heq
      rw [Prod.mk.injEq] at hdel
      obtain ⟨-, hdb'⟩ := hdel
      unfold PollRepository.DeletePoll at heq
      split at heq
      · cases heq
      · rename_i hcnt
        rw [Except.ok.injEq] at heq
        have hex : ∃ p ∈ db.polls, p.ID = pid := by
          simp only [beq_iff_eq] at hcnt
          by_contra hno
          push_neg at hno
          refine hcnt ?_
          rw [List.countP_eq_zero]
          intro a ha hpa
          exact hno a ha (by simpa [beq_iff_eq] using hpa)
        obtain ⟨q, hq, hqa⟩ := softDelete_getPollByID hex
        have hq' : PollRepository.GetPollByID db' pid = some q := by
          rw [← hdb', ← heq]
          exact hq
        exact castVoteDB_inactive hq' hqa
  · intro p t h ha het hlt
    refine castVoteDB_expired h ha ?_
    rw [het]
    unfold PollService.expired
    exact decide_eq_true hlt

/-- Witness for C4: both failure modes at the example store. -/
theorem castVote_after_delete_or_expiry_witness :
    PollService.CastVoteDB 11 dbColorsDeleted 1 2 "v1" =
      (.error .pollNotActive, dbColorsDeleted) ∧
    PollService.CastVoteDB 11 dbExp 1 2 "v1" = (.error .pollExpired, dbExp) :=
  ⟨(castVote_after_delete_or_expiry 11 dbColors 1 2 "v1").1 dbColorsDeleted (by decide),
   (castVote_after_delete_or_expiry 11 dbExp 1 2 "v1").2
     { pollColors with CreatedAt := 0, ExpiresAt := some 5 } 5
     (by decide) (by decide) (by decide) (by decide)⟩

/-- Counterexample to Claim C5 as stated: the claim requires rejection of
any expiresAt less than or equal to the current time, but at expiresAt
equal to the current instant (1000) the source's strict Before-check passes
and the poll is created. -/
theorem createPoll_expiry_boundary_counterexample :
    (PollService.CreatePoll 1000 dbEmpty reqExpiryNow).1.isOk = true ∧
    ((1000 : Int) ≤ 1000) := by
  refine ⟨by decide, by decide⟩

/-- Claim C5 (amended: an expiry strictly before the current time is
rejected; one equal to it is accepted): any question length outside
[5,500], option count outside [2,10], option length outside [1,200] or
expiry strictly in the past is rejected with a validation error, returned
with the store untouched — before any repository operation. -/
theorem createPoll_validation_rejects (now : Int) (db : DB) (req : CreatePollRequest)
    (h : req.Question.length < 5 ∨ 500 < req.Question.length ∨
         req.Options.length < 2 ∨ 10 < req.Options.length ∨
         (∃ t ∈ req.Options, t.length < 1 ∨ 200 < t.length) ∨
         (∃ t, req.ExpiresAt = some t ∧ t < now)) :
    ∃ msg, PollService.CreatePoll now db req = (.error (.validationFailed msg), db) := by
  unfold PollService.CreatePoll
  split
  · exact ⟨_, rfl⟩
  · split
    · exact ⟨_, rfl⟩
    · split
      · exact ⟨_, rfl⟩
      · split
        · exact ⟨_, rfl⟩
        · split
          · exact ⟨_, rfl⟩
          · exfalso
            rename_i hq hc2 hc10 hx hfind hexp
            rcases h with h | h | h | h | h | h
            · exact hq (Or.inl h)
            · exact hq (Or.inr h)
            · exact hc2 h
            · exact hc10 h
            · obtain ⟨t, htMem, htBad⟩ := h
              have hgood := List.findIdx?_eq_none_iff.mp hfind t htMem
              rw [decide_eq_false_iff_not] at hgood
              exact hgood htBad
            · obtain ⟨t, hte, htlt⟩ := h
              refine hexp ?_
              rw [hte]
              unfold PollService.expired
              exact decide_eq_true htlt

/-- Witness for C5 (amended) at a too-short question. -/
theorem createPoll_validation_rejects_witness :
    reqShort.Question.length < 5 ∧
    (∃ msg, PollService.CreatePoll 0 dbEmpty reqShort
      = (.error (.validationFailed msg), dbEmpty)) :=
  ⟨by decide, createPoll_validation_rejects 0 dbEmpty reqShort (Or.inl (by decide))⟩

/-- Claim C6: a successful CreatePoll with N option strings (2 ≤ N ≤ 10
enforced by validation) returns exactly N options whose positions are
0..N-1 in input order, whose texts match the input strings in order, and
whose counters — per option and the poll total — are all zero. -/
theorem createPoll_ok_shape (now : Int) (db : DB) (req : CreatePollRequest)
    (pw : PollWithOptions) (db₁ : DB)
    (hok : PollService.CreatePoll now db req = (.ok pw, db₁)) :
    2 ≤ req.Options.length ∧ req.Options.length ≤ 10 ∧
    pw.Options.length = req.Options.length ∧
    pw.Options.map (fun o => o.Position) = List.range req.Options.length ∧
    pw.Options.map (fun o => o.OptionText) = req.Options ∧
    (∀ o ∈ pw.Options, o.VoteCount = 0) ∧
    pw.TotalVotes = 0 := by
  obtain ⟨hpoll, hopts, -, hc2, hc10⟩ := createPoll_ok_inversion hok
  refine ⟨hc2, hc10, ?_, ?_, ?_, ?_, ?_⟩
  · rw [hopts, insertOptions_length, buildOptions_length]
  · rw [hopts, insertOptions_map_Position, buildOptions_length, List.range_eq_range']
  · rw [hopts, insertOptions_map_OptionText, buildOptions_map_OptionText]
  · intro o ho
    rw [hopts] at ho
    exact (insertOptions_mem now db.nextId (db.nextId + 1) 0 _ o ho).2
  · rw [show pw.TotalVotes = pw.toPoll.TotalVotes from rfl, hpoll]

/-- Witness for C6 at the example request. -/
theorem createPoll_ok_shape_witness :
    2 ≤ reqColors.Options.length ∧ reqColors.Options.length ≤ 10 ∧
    pwColors.Options.length = reqColors.Options.length ∧
    pwColors.Options.map (fun o => o.Position) = List.range reqColors.Options.length ∧
    pwColors.Options.map (fun o => o.OptionText) = reqColors.Options ∧
    (∀ o ∈ pwColors.Options, o.VoteCount = 0) ∧
    pwColors.TotalVotes = 0 :=
  createPoll_ok_shape 10 dbEmpty reqColors pwColors dbColors (by decide)

/-- Claim C7: each returned option percentage is voteCount/totalVotes*100
when totalVotes > 0 and 0 when totalVotes = 0 (float64 modelled over ℚ);
whenever the per-option counts sum to the total and the total is positive
the percentages sum to exactly 100, and they are all 0 at total 0. -/
theorem getPollResults_percentages (p : Poll) (opts : List PollOption)
    (hv : Bool × Option Nat) (res : PollResults)
    (hok : PollService.GetPollResults
        { getPollByID := .ok (some p), getPollOptions := .ok opts,
          hasVoted := .ok hv } = .ok res) :
    (∀ r ∈ res.Options, r.Percentage =
      if 0 < res.TotalVotes then (r.VoteCount : ℚ) / (res.TotalVotes : ℚ) * 100 else 0) ∧
    ((opts.map (fun o => o.VoteCount)).sum = p.TotalVotes → 0 < p.TotalVotes →
      (res.Options.map (fun r => r.Percentage)).sum = 100) ∧
    (p.TotalVotes = 0 → ∀ r ∈ res.Options, r.Percentage = 0) := by
  unfold PollService.GetPollResults at hok
  dsimp only at hok
  rw [Except.ok.injEq] at hok
  subst hok
  refine ⟨?_, ?_, ?_⟩
  · intro r hr
    dsimp only at hr ⊢
    rw [List.mem_map] at hr
    obtain ⟨o, hoMem, rfl⟩ := hr
    rfl
  · intro hsum hpos
    dsimp only
    rw [List.map_map]
    have hT0 : ((p.TotalVotes : ℚ)) ≠ 0 :=
      ne_of_gt (Int.cast_pos.mpr hpos)
    calc ((opts.map ((fun r => r.Percentage) ∘ (fun o =>
            ({ toPollOption := o,
               Percentage := PollService.percentageOf p.TotalVotes o.VoteCount } : OptionResult)))).sum)
        = (opts.map (fun o => (o.VoteCount : ℚ) * (100 / (p.TotalVotes : ℚ)))).sum := by
          refine congrArg List.sum (List.map_congr_left ?_)
          intro a _
          dsimp only [Function.comp]
          unfold PollService.percentageOf
          rw [if_pos hpos]
          ring
      _ = ((opts.map (fun o => (o.VoteCount : ℚ))).sum) * (100 / (p.TotalVotes : ℚ)) :=
          List.sum_map_mul_right opts (fun o => (o.VoteCount : ℚ)) _
      _ = ((p.TotalVotes : ℚ)) * (100 / (p.TotalVotes : ℚ)) := by
          have hcast : (opts.map (fun o => (o.VoteCount : ℚ)))
              = (opts.map (fun o => o.VoteCount)).map Int.cast := by
            rw [List.map_map]
            rfl
          rw [hcast, ← Int.cast_list_sum, hsum]
      _ = 100 := by
          rw [mul_comm, div_mul_cancel₀ _ hT0]
  · intro h0 r hr
    dsimp only at hr ⊢
    rw [List.mem_map] at hr
    obtain ⟨o, hoMem, rfl⟩ := hr
    dsimp only
    unfold PollService.percentageOf
    rw [h0]
    simp

/-- Witness for C7 over the two-vote example state (1 + 1 votes, total 2). -/
theorem getPollResults_percentages_witness :
    ((([optRed1, optBlue1] : List PollOption).map (fun o => o.VoteCount)).sum
        = pollVoted.TotalVotes ∧ 0 < pollVoted.TotalVotes) ∧
    (resVoted.Options.map (fun r => r.Percentage)).sum = 100 :=
  ⟨⟨by decide, by decide⟩,
    (getPollResults_percentages pollVoted [optRed1, optBlue1] (false, none) resVoted rfl).2.1
      (by decide) (by decide)⟩

/-- Counterexample to Claim C8 as stated: the claim (and the spec's design
note) say an oversized explicit limit such as 10000 is not clamped and is
passed through to the repository unchanged; the source's condition
`limit <= 0 || limit > 100` replaces it with the default 20. -/
theorem listPolls_oversized_limit_counterexample :
    (PollService.listPollsParams 10000 0).1 = 20 ∧
    (PollService.listPollsParams 10000 0).1 ≠ 10000 := by
  refine ⟨by decide, by decide⟩

/-- Claim C8 (amended: an oversized limit is also replaced by the default):
limit ≤ 0 or limit > 100 becomes 20, a limit in [1,100] passes through
unchanged, a negative offset becomes 0, a non-negative offset passes
through unchanged. -/
theorem listPollsParams_normalisation (limit offset : Int) :
    ((limit ≤ 0 ∨ 100 < limit) → (PollService.listPollsParams limit offset).1 = 20) ∧
    (0 < limit → limit ≤ 100 → (PollService.listPollsParams limit offset).1 = limit) ∧
    (offset < 0 → (PollService.listPollsParams limit offset).2 = 0) ∧
    (0 ≤ offset → (PollService.listPollsParams limit offset).2 = offset) := by
  unfold PollService.listPollsParams
  dsimp only
  refine ⟨fun h => by rw [if_pos h],
    fun h1 h2 => by rw [if_neg (by omega)],
    fun h => by rw [if_pos h],
    fun h => by rw [if_neg (by omega)]⟩

/-- Witness for C8 (amended) at limit 10000 and offset -3. -/
theorem listPollsParams_normalisation_witness :
    (PollService.listPollsParams 10000 (-3)).1 = 20 ∧
    (PollService.listPollsParams 10000 (-3)).2 = 0 :=
  ⟨(listPollsParams_normalisation 10000 (-3)).1 (by decide),
   (listPollsParams_normalisation 10000 (-3)).2.2.1 (by decide)⟩

/-- Claim C9: a failing has-voted lookup does not fail GetPollResults: the
result is still ok, carrying the poll, the options with their vote counts
and percentages, with hasVoted degraded to false and votedOption absent —
identical to the result of a successful lookup answering (false, none). -/
theorem getPollResults_hasVoted_failure_degrades (p : Poll) (opts : List PollOption)
    (e : StoreErr) :
    PollService.GetPollResults
        { getPollByID := .ok (some p), getPollOptions := .ok opts,
          hasVoted := .error e } =
      .ok { poll := p
            Options := opts.map (fun o =>
              { toPollOption := o,
                Percentage := PollService.percentageOf p.TotalVotes o.VoteCount })
            TotalVotes := p.TotalVotes
            HasVoted := false
            VotedOption := none } ∧
    PollService.GetPollResults
        { getPollByID := .ok (some p), getPollOptions := .ok opts,
          hasVoted := .error e } =
      PollService.GetPollResults
        { getPollByID := .ok (some p), getPollOptions := .ok opts,
          hasVoted := .ok (false, none) } :=
  ⟨rfl, rfl⟩

/-- Claim C10: DeletePoll is idempotent at the public interface: whenever a
poll row with the id exists — active or not — DeletePoll succeeds and
leaves every row with that id inactive, and deleting again succeeds with
the very same state; the not-found error is returned exactly when no row
with that id exists. -/
theorem deletePoll_idempotent (db : DB) (pid : Nat) :
    ((∃ p ∈ db.polls, p.ID = pid) →
      (PollService.DeletePollDB db pid).1 = .ok () ∧
      (∀ p ∈ (PollService.DeletePollDB db pid).2.polls, p.ID = pid → p.IsActive = false) ∧
      PollService.DeletePollDB (PollService.DeletePollDB db pid).2 pid
        = (.ok (), (PollService.DeletePollDB db pid).2)) ∧
    ((∀ p ∈ db.polls, p.ID ≠ pid) →
      PollService.DeletePollDB db pid = (.error (.failedToDeletePoll .pollNotFound), db)) := by
  constructor
  · intro h
    have hdel := deletePollDB_ok h
    have hsnd : (PollService.DeletePollDB db pid).2
        = { db with polls := db.polls.map (PollRepository.softDeleteRow pid) } := by
      rw [hdel]
    refine ⟨by rw [hdel], ?_, ?_⟩
    · rw [hsnd]
      exact softDelete_all_inactive
    · obtain ⟨p, hm, hid⟩ := h
      have h' : ∃ q ∈ (PollService.DeletePollDB db pid).2.polls, q.ID = pid := by
        rw [hsnd]
        exact ⟨PollRepository.softDeleteRow pid p, List.mem_map_of_mem _ hm,
          by rw [softDeleteRow_ID, hid]⟩
      rw [deletePollDB_ok h']
      rw [Prod.mk.injEq]
      refine ⟨rfl, ?_⟩
      rw [hsnd]
      dsimp only
      rw [DB.mk.injEq]
      refine ⟨rfl, ?_, rfl, rfl⟩
      rw [List.map_map]
      refine List.map_congr_left ?_
      intro a _
      exact softDeleteRow_idem pid a
  · intro h
    exact deletePollDB_notFound h

/-- Witness for C10: deleting the one-poll store twice. -/
theorem deletePoll_idempotent_witness :
    (PollService.DeletePollDB dbColors 1).1 = .ok () ∧
    (∀ p ∈ (PollService.DeletePollDB dbColors 1).2.polls, p.ID = 1 → p.IsActive = false) ∧
    PollService.DeletePollDB (PollService.DeletePollDB dbColors 1).2 1
      = (.ok (), (PollService.DeletePollDB dbColors 1).2) :=
  (deletePoll_idempotent dbColors 1).1 (by decide)

end PollApp
